import Mathlib

/-!
Verification development for the rdio-scanner repository.

The client-side livefeed logic is embedded from the Angular service
(`src/unnamed/part_001`, class `RdioScannerService`); the administrative
server logic is embedded from `src/server/admin.go` and
`src/server/options.go`.  JavaScript objects keyed by numeric ids are
modelled as association lists with `alookup`/`setk`; JS property
accesses that would throw a `TypeError` (reading/writing a property of
`undefined`) are modelled with `Option`.  Components whose Go sources
are not part of `src/` (the Duplicate Detector, the Call Store and the
server side of the Distribution Hub) are modelled from the spec and
marked as such in their doc comments.
-/

/-- Association-list lookup, the model of a JavaScript object property read
`obj[k]`: the first entry with the given key wins, a missing key yields
`none` (JS `undefined`). -/
def alookup {κ α : Type} [DecidableEq κ] : List (κ × α) → κ → Option α
  | [], _ => none
  | p :: rest, k => if p.1 = k then some p.2 else alookup rest k

/-- Association-list update, the model of a JavaScript object property write
`obj[k] = v`: an existing key keeps its position and gets the new value, a
new key is appended. -/
def setk {κ α : Type} [DecidableEq κ] (m : List (κ × α)) (k : κ) (v : α) :
    List (κ × α) :=
  if m.any (fun p => decide (p.1 = k)) then
    m.map (fun p => if p.1 = k then (k, v) else p)
  else
    m ++ [(k, v)]

theorem alookup_append {κ α : Type} [DecidableEq κ] (l1 l2 : List (κ × α)) (j : κ) :
    alookup (l1 ++ l2) j =
      match alookup l1 j with
      | some v => some v
      | none => alookup l2 j := by
  induction l1 with
  | nil => simp [alookup]
  | cons p rest ih =>
    by_cases h : p.1 = j <;> simp [alookup, h, ih]

theorem alookup_map_replace {κ α : Type} [DecidableEq κ]
    (m : List (κ × α)) (k : κ) (v : α) (j : κ) (h : j ≠ k) :
    alookup (m.map (fun p => if p.1 = k then (k, v) else p)) j = alookup m j := by
  induction m with
  | nil => simp [alookup]
  | cons p rest ih =>
    by_cases hpk : p.1 = k
    · have hkj : ¬k = j := fun hc => h hc.symm
      simp [alookup, hpk, hkj, ih]
    · by_cases hpj : p.1 = j
      · simp [alookup, hpk, hpj, h, ih]
      · simp [alookup, hpk, hpj, ih]

theorem alookup_map_replace_self {κ α : Type} [DecidableEq κ]
    (m : List (κ × α)) (k : κ) (v : α)
    (h : m.any (fun p => decide (p.1 = k)) = true) :
    alookup (m.map (fun p => if p.1 = k then (k, v) else p)) k = some v := by
  induction m with
  | nil => simp at h
  | cons p rest ih =>
    by_cases hpk : p.1 = k
    · simp [alookup, hpk]
    · simp only [List.any_cons, Bool.or_eq_true, decide_eq_true_eq] at h
      rcases h with h | h
      · exact absurd h hpk
      · simp [alookup, hpk, ih h]

theorem alookup_eq_none_of_not_any {κ α : Type} [DecidableEq κ]
    (m : List (κ × α)) (k : κ)
    (h : m.any (fun p => decide (p.1 = k)) = false) :
    alookup m k = none := by
  induction m with
  | nil => simp [alookup]
  | cons p rest ih =>
    simp only [List.any_cons, Bool.or_eq_false_iff, decide_eq_false_iff_not] at h
    simp [alookup, h.1, ih h.2]

theorem alookup_setk {κ α : Type} [DecidableEq κ]
    (m : List (κ × α)) (k : κ) (v : α) (j : κ) :
    alookup (setk m k v) j = if j = k then some v else alookup m j := by
  unfold setk
  by_cases hany : m.any (fun p => decide (p.1 = k)) = true
  · by_cases hj : j = k
    · subst hj
      simp [hany, alookup_map_replace_self m j v hany]
    · simp [hany, hj, alookup_map_replace m k v j hj]
  · have hnone := alookup_eq_none_of_not_any m k (by
      cases hv : m.any (fun p => decide (p.1 = k)) with
      | true => exact absurd hv hany
      | false => rfl)
    by_cases hj : j = k
    · subst hj
      simp [hany, alookup_append, hnone, alookup]
    · simp only [hany, if_false, Bool.false_eq_true, if_neg hj]
      rw [alookup_append]
      cases hres : alookup m j with
      | some v' => rfl
      | none =>
        have hkj : ¬k = j := fun hc => hj hc.symm
        simp [alookup, hkj]

theorem setk_entry_of_key {κ α : Type} [DecidableEq κ]
    (m : List (κ × α)) (k : κ) (v : α) (p : κ × α)
    (hp : p ∈ setk m k v) (hk : p.1 = k) : p = (k, v) := by
  unfold setk at hp
  by_cases hany : m.any (fun q => decide (q.1 = k)) = true
  · simp only [hany, if_true] at hp
    rcases List.mem_map.mp hp with ⟨q, _, hq⟩
    by_cases hqk : q.1 = k
    · simpa [hqk] using hq.symm
    · rw [if_neg hqk] at hq
      exact absurd (hq ▸ hk) hqk
  · simp only [hany, Bool.false_eq_true, if_false] at hp
    rcases List.mem_append.mp hp with hmem | hmem
    · have hnone := alookup_eq_none_of_not_any m k (by
        cases hv : m.any (fun q => decide (q.1 = k)) with
        | true => exact absurd hv hany
        | false => rfl)
      exfalso
      have : m.any (fun q => decide (q.1 = k)) = true :=
        List.any_eq_true.mpr ⟨p, hmem, by simpa using hk⟩
      exact hany this
    · simpa using hmem

theorem alookup_filter_of_key {κ α : Type} [DecidableEq κ]
    (m : List (κ × α)) (k : κ) (pred : κ × α → Bool)
    (h : ∀ p ∈ m, p.1 = k → pred p = true) :
    alookup (m.filter pred) k = alookup m k := by
  induction m with
  | nil => simp
  | cons p rest ih =>
    have hrest : ∀ q ∈ rest, q.1 = k → pred q = true :=
      fun q hq => h q (List.mem_cons_of_mem p hq)
    by_cases hpk : p.1 = k
    · have hpred := h p (List.mem_cons_self p rest) hpk
      simp [List.filter_cons, hpred, alookup, hpk]
    · cases hpred : pred p with
      | true => simp [List.filter_cons, hpred, alookup, hpk, ih hrest]
      | false => simp [List.filter_cons, hpred, alookup, hpk, ih hrest]

/-! ## Client data model (`src/unnamed/part_001`) -/

/-- The per-talkgroup part of a session's Livefeed Map:
talkgroup id → subscribed flag. -/
abbrev TgMap := List (Nat × Bool)

/-- A session's Livefeed Map (`RdioScannerLivefeedMap`):
system id → talkgroup id → subscribed flag. -/
abbrev LivefeedMap := List (Nat × TgMap)

/-- The fields of `RdioScannerCall` used by the livefeed logic. -/
structure Call where
  system : Nat
  talkgroup : Nat
  patches : List Nat
deriving DecidableEq

/-- Two-level lookup `map[sys][tg]`, `none` when either level is missing. -/
def lookup2 (m : LivefeedMap) (sys tg : Nat) : Option Bool :=
  (alookup m sys).bind (fun tgm => alookup tgm tg)

/-- The truthiness of `this.livefeedMap && this.livefeedMap[sys] &&
this.livefeedMap[sys][tg]` (the closure `lfm` inside `cleanQueue`,
src/unnamed/part_001 line 693): a missing system or talkgroup entry is
falsy, otherwise the stored boolean decides. -/
def lfm (m : LivefeedMap) (sys tg : Nat) : Bool :=
  (lookup2 m sys tg).getD false

/-- The closure `isActive` inside `cleanQueue` (src/unnamed/part_001
lines 692-704): a call stays active when its primary talkgroup is
subscribed, or, failing that, when any of its patched talkgroups is. -/
def isActive (m : LivefeedMap) (c : Call) : Bool :=
  lfm m c.system c.talkgroup || c.patches.any (fun tg => lfm m c.system tg)

/-- `cleanQueue` (src/unnamed/part_001 lines 691-711): the call queue is
filtered down to the calls that are still active under the current
Livefeed Map.  (The follow-up `skip` of a now-inactive playing call does
not touch the queue.) -/
def cleanQueue (m : LivefeedMap) (queue : List Call) : List Call :=
  queue.filter (fun c => isActive m c)

/-- `isAvoided` (src/unnamed/part_001 lines 334-336): the call's system has
an entry and its talkgroup entry is strictly `=== false`. -/
def isAvoided (m : LivefeedMap) (c : Call) : Bool :=
  (alookup m c.system).isSome && decide (lookup2 m c.system c.talkgroup = some false)

/-- `isPatched` (src/unnamed/part_001 lines 338-342): the call is avoided on
its primary talkgroup yet one of its patches is subscribed. -/
def isPatched (m : LivefeedMap) (c : Call) : Bool :=
  isAvoided m c &&
    c.patches.any (fun tg => (alookup m c.system).isSome && lfm m c.system tg)

/-- Modelled from the spec: the Distribution Hub's per-session delivery
predicate (spec §4.5/§8) — the Go hub source is not under `src/`.  A
session receives a call exactly when its Livefeed Map has `true` for the
call's (system, talkgroup), or `true` for (system, p) for some patched
talkgroup p of the call. -/
def hubDelivers (m : LivefeedMap) (c : Call) : Prop :=
  lookup2 m c.system c.talkgroup = some true ∨
    ∃ p ∈ c.patches, lookup2 m c.system p = some true

theorem getD_false_eq_true (o : Option Bool) : (o.getD false = true) ↔ o = some true := by
  cases o <;> simp

theorem isActive_iff_hubDelivers (m : LivefeedMap) (c : Call) :
    isActive m c = true ↔ hubDelivers m c := by
  simp [isActive, hubDelivers, lfm, List.any_eq_true, getD_false_eq_true]

/-- The example Livefeed Map of spec §8: system 1 with talkgroup 100
avoided and talkgroup 200 subscribed. -/
def exampleMap : LivefeedMap := [(1, [(100, false), (200, true)])]

/-- Claim C1: a session receives (and the client keeps queued) a call if and
only if its Livefeed Map has `true` for the call's (system, talkgroup) or
for (system, p) for some patched talkgroup p; with map
`{1: {100: false, 200: true}}` the call (system 1, talkgroup 100,
patches [200]) is kept and the call (system 1, talkgroup 100, patches [])
is dropped. -/
theorem C1_livefeed_delivery :
    (∀ (m : LivefeedMap) (q : List Call) (c : Call),
      c ∈ cleanQueue m q ↔ c ∈ q ∧ hubDelivers m c) ∧
    cleanQueue exampleMap [⟨1, 100, [200]⟩, ⟨1, 100, []⟩] = [⟨1, 100, [200]⟩] ∧
    isActive exampleMap ⟨1, 100, [200]⟩ = true ∧
    isActive exampleMap ⟨1, 100, []⟩ = false := by
  refine ⟨fun m q c => ?_, by decide, by decide, by decide⟩
  rw [cleanQueue, List.mem_filter, isActive_iff_hubDelivers]

/-! ## Configuration universe and `rebuildLivefeedMap` (`src/unnamed/part_001`) -/

/-- The fields of a configured talkgroup used by the client
(`config.systems[].talkgroups[]`). -/
structure TalkgroupCfg where
  id : Nat
  group : Option String
  tag : Option String
deriving DecidableEq

/-- The fields of a configured system used by the client
(`config.systems[]`). -/
structure SystemCfg where
  id : Nat
  talkgroups : List TalkgroupCfg
deriving DecidableEq

/-- One step of the outer `reduce` of `rebuildLivefeedMap`
(src/unnamed/part_001 lines 1001-1011): the system's talkgroup map is
rebuilt starting from `sysMap[sys.id] || {}`, each configured talkgroup
keeping its boolean from the old map when one exists and defaulting to
`true` otherwise. -/
def rebuildStep (old : LivefeedMap) (sysMap : LivefeedMap) (sys : SystemCfg) :
    LivefeedMap :=
  setk sysMap sys.id
    (sys.talkgroups.foldl
      (fun tgMap tg => setk tgMap tg.id ((lookup2 old sys.id tg.id).getD true))
      ((alookup sysMap sys.id).getD []))

/-- `rebuildLivefeedMap` (src/unnamed/part_001 lines 1000-1011): the map is
rebuilt from scratch over the configured systems/talkgroups. -/
def rebuildLivefeedMap (systems : List SystemCfg) (old : LivefeedMap) :
    LivefeedMap :=
  systems.foldl (rebuildStep old) []

/-- Whether the pair (system `s`, talkgroup `tg`) occurs in the configured
System/Talkgroup universe. -/
def cfgHasTg (systems : List SystemCfg) (s tg : Nat) : Bool :=
  systems.any (fun sys =>
    decide (sys.id = s) && sys.talkgroups.any (fun t => decide (t.id = tg)))

theorem rebuild_inner_lookup (old : LivefeedMap) (sysId : Nat)
    (tgs : List TalkgroupCfg) (tgMap0 : TgMap) (tg : Nat) :
    alookup (tgs.foldl
        (fun tgMap t => setk tgMap t.id ((lookup2 old sysId t.id).getD true))
        tgMap0) tg =
      if tgs.any (fun t => decide (t.id = tg)) = true then
        some ((lookup2 old sysId tg).getD true)
      else alookup tgMap0 tg := by
  induction tgs generalizing tgMap0 with
  | nil => simp
  | cons t tgs ih =>
    rw [List.foldl_cons, ih]
    by_cases hany : tgs.any (fun t' => decide (t'.id = tg)) = true
    · simp [hany]
    · rw [alookup_setk]
      by_cases hid : t.id = tg
      · subst hid
        simp [hany]
      · have htg : ¬tg = t.id := fun hc => hid hc.symm
        simp [hany, hid, htg]

theorem lookup2_setk (m : LivefeedMap) (k : Nat) (tgm : TgMap) (s tg : Nat) :
    lookup2 (setk m k tgm) s tg =
      if s = k then alookup tgm tg else lookup2 m s tg := by
  unfold lookup2
  rw [alookup_setk]
  by_cases hs : s = k <;> simp [hs]

theorem alookup_getD_nil (acc : LivefeedMap) (k tg : Nat) :
    alookup ((alookup acc k).getD []) tg = lookup2 acc k tg := by
  unfold lookup2
  cases alookup acc k <;> simp [alookup]

theorem rebuild_foldl_lookup (old : LivefeedMap) (systems : List SystemCfg)
    (acc : LivefeedMap) (s tg : Nat) :
    lookup2 (systems.foldl (rebuildStep old) acc) s tg =
      if cfgHasTg systems s tg = true then some ((lookup2 old s tg).getD true)
      else lookup2 acc s tg := by
  induction systems generalizing acc with
  | nil => simp [cfgHasTg]
  | cons sys rest ih =>
    rw [List.foldl_cons, ih]
    have hstep : lookup2 (rebuildStep old acc sys) s tg =
        if (decide (sys.id = s) &&
            sys.talkgroups.any (fun t => decide (t.id = tg))) = true then
          some ((lookup2 old s tg).getD true)
        else lookup2 acc s tg := by
      unfold rebuildStep
      rw [lookup2_setk]
      by_cases hs : s = sys.id
      · rw [if_pos hs, rebuild_inner_lookup, hs]
        by_cases hany : sys.talkgroups.any (fun t => decide (t.id = tg)) = true
        · simp [hany]
        · rw [alookup_getD_nil]
          simp [hany]
      · have hs' : ¬sys.id = s := fun hc => hs hc.symm
        simp [hs, hs']
    rw [hstep]
    have hcons : cfgHasTg (sys :: rest) s tg =
        ((decide (sys.id = s) &&
          sys.talkgroups.any (fun t => decide (t.id = tg))) ||
         cfgHasTg rest s tg) := by
      simp [cfgHasTg]
    cases hh : (decide (sys.id = s) &&
        sys.talkgroups.any (fun t => decide (t.id = tg))) with
    | true => cases hr : cfgHasTg rest s tg <;> simp [hcons, hh, hr]
    | false => cases hr : cfgHasTg rest s tg <;> simp [hcons, hh, hr]

/-- Claim C5: after a configuration-change rebuild, every talkgroup present
in the new configuration keeps the session's existing boolean entry when
one exists and otherwise defaults to subscribed (`true`); every talkgroup
absent from the new configuration is absent from the rebuilt map. -/
theorem C5_rebuild_livefeed_map (systems : List SystemCfg) (old : LivefeedMap)
    (s tg : Nat) :
    lookup2 (rebuildLivefeedMap systems old) s tg =
      if cfgHasTg systems s tg = true then some ((lookup2 old s tg).getD true)
      else none := by
  rw [rebuildLivefeedMap, rebuild_foldl_lookup]
  by_cases h : cfgHasTg systems s tg = true <;> simp [h, lookup2, alookup]

/-! ## Hold state machine (`src/unnamed/part_001`)

The fields of `RdioScannerService` that the hold/avoid/toggle operations
read and write: the Livefeed Map and the two saved-map snapshots.  The
operations read the current call only through `this.call ||
this.callPrevious`, passed here as an `Option Call` argument; the audio
queue, event emission, category rebuild and websocket traffic touched by
the same methods never write these three fields. -/

structure HoldState where
  livefeedMap : LivefeedMap
  livefeedMapPriorToHoldSystem : Option LivefeedMap
  livefeedMapPriorToHoldTalkgroup : Option LivefeedMap
deriving DecidableEq

/-- The initial field values of `RdioScannerService` (lines 92-94): empty
map, both snapshots unset. -/
def initialHoldState : HoldState := ⟨[], none, none⟩

/-- The map built when `holdSystem` engages (src/unnamed/part_001 lines
244-259): every talkgroup outside the held call's system goes to `false`;
inside the held system each talkgroup keeps its flag, except that when the
whole system was off (`allOn`) every talkgroup goes to `true`. -/
def holdSystemMap (call : Call) (m : LivefeedMap) : LivefeedMap :=
  m.map (fun se =>
    (se.1,
      let allOn := se.2.all (fun te => !te.2)
      se.2.map (fun te =>
        (te.1, if se.1 = call.system then (allOn || te.2) else false))))

/-- The map built when `holdTalkgroup` engages (src/unnamed/part_001 lines
298-311): only the held call's (system, talkgroup) stays `true`. -/
def holdTalkgroupMap (call : Call) (m : LivefeedMap) : LivefeedMap :=
  m.map (fun se =>
    (se.1, se.2.map (fun te =>
      (te.1, if se.1 = call.system then decide (te.1 = call.talkgroup)
             else false))))

/-- `holdSystem` (src/unnamed/part_001 lines 228-280).  When a snapshot for
the system hold exists, it is restored verbatim and cleared; otherwise a
pending talkgroup hold is first released (the nested
`holdTalkgroup({resubscribe: false})` call takes that method's restore
branch), the current map is saved and the hold map installed. -/
def holdSystem (currentCall : Option Call) (s : HoldState) : HoldState :=
  match currentCall with
  | none => s
  | some call =>
    match s.livefeedMapPriorToHoldSystem with
    | some prior =>
      { s with livefeedMap := prior, livefeedMapPriorToHoldSystem := none }
    | none =>
      let s1 :=
        match s.livefeedMapPriorToHoldTalkgroup with
        | some prior =>
          { s with livefeedMap := prior,
                   livefeedMapPriorToHoldTalkgroup := none }
        | none => s
      { s1 with
        livefeedMapPriorToHoldSystem := some s1.livefeedMap,
        livefeedMap := holdSystemMap call s1.livefeedMap }

/-- `holdTalkgroup` (src/unnamed/part_001 lines 282-332), symmetric to
`holdSystem`. -/
def holdTalkgroup (currentCall : Option Call) (s : HoldState) : HoldState :=
  match currentCall with
  | none => s
  | some call =>
    match s.livefeedMapPriorToHoldTalkgroup with
    | some prior =>
      { s with livefeedMap := prior, livefeedMapPriorToHoldTalkgroup := none }
    | none =>
      let s1 :=
        match s.livefeedMapPriorToHoldSystem with
        | some prior =>
          { s with livefeedMap := prior,
                   livefeedMapPriorToHoldSystem := none }
        | none => s
      { s1 with
        livefeedMapPriorToHoldTalkgroup := some s1.livefeedMap,
        livefeedMap := holdTalkgroupMap call s1.livefeedMap }

/-- The argument object of `avoid` (`RdioScannerAvoidOptions`): `all`,
`status`, a call, or a system id with an optional talkgroup id. -/
structure AvoidOptions where
  all : Option Bool
  status : Option Bool
  call : Option Call
  system : Option Nat
  talkgroup : Option Nat
deriving DecidableEq

/-- The write `this.livefeedMap[sys][tg] = status ?? !this.livefeedMap[sys][tg]`
used by three branches of `avoid`: `none` models the JS `TypeError` thrown
when `livefeedMap[sys]` is `undefined`. -/
def avoidSetOrToggle (m : LivefeedMap) (sys tg : Nat) (status : Option Bool) :
    Option LivefeedMap :=
  match alookup m sys with
  | none => none
  | some tgm =>
    let v :=
      match status with
      | some b => b
      | none => !((alookup tgm tg).getD false)
    some (setk m sys (setk tgm tg v))

/-- `avoid` (src/unnamed/part_001 lines 123-188): both hold snapshots are
discarded, then the Livefeed Map is mutated according to the options
(everything, one call, one system+talkgroup, a whole system, or the
current call as fallback). -/
def avoid (opts : AvoidOptions) (currentCall : Option Call) (s : HoldState) :
    Option HoldState :=
  let s0 : HoldState :=
    { s with livefeedMapPriorToHoldSystem := none,
             livefeedMapPriorToHoldTalkgroup := none }
  let newMap : Option LivefeedMap :=
    match opts.all with
    | some a =>
      some (s0.livefeedMap.map (fun se =>
        (se.1, se.2.map (fun te => (te.1, opts.status.getD a)))))
    | none =>
      match opts.call with
      | some c => avoidSetOrToggle s0.livefeedMap c.system c.talkgroup opts.status
      | none =>
        match opts.system, opts.talkgroup with
        | some sys, some tg => avoidSetOrToggle s0.livefeedMap sys tg opts.status
        | some sys, none =>
          match alookup s0.livefeedMap sys with
          | none => none
          | some tgm =>
            some (setk s0.livefeedMap sys
              (tgm.map (fun te => (te.1, opts.status.getD (!te.2)))))
        | none, _ =>
          match currentCall with
          | some c =>
            avoidSetOrToggle s0.livefeedMap c.system c.talkgroup opts.status
          | none => some s0.livefeedMap
  newMap.map (fun m => { s0 with livefeedMap := m })

/-- `RdioScannerCategoryType`. -/
inductive CategoryType
  | group
  | tag
deriving DecidableEq

/-- `RdioScannerCategoryStatus` (`Partial` renamed `mixed`). -/
inductive CategoryStatus
  | off
  | on
  | mixed
deriving DecidableEq

/-- `RdioScannerCategory`. -/
structure Category where
  label : String
  type : CategoryType
  status : CategoryStatus
deriving DecidableEq

/-- `toggleCategory` (src/unnamed/part_001 lines 596-643): both hold
snapshots are discarded, then every configured talkgroup whose group/tag
matches the category is set to the toggled status; a matching talkgroup
whose system is missing from the map makes the JS code throw, modelled
as `none`. -/
def toggleCategory (cfgSystems : List SystemCfg) (cat : Category)
    (s : HoldState) : Option HoldState :=
  let s0 : HoldState :=
    { s with livefeedMapPriorToHoldSystem := none,
             livefeedMapPriorToHoldTalkgroup := none }
  let status : Bool := match cat.status with
    | CategoryStatus.on => false
    | _ => true
  let newMap : Option LivefeedMap :=
    cfgSystems.foldlM (fun m sys =>
      sys.talkgroups.foldlM (fun m' tg =>
        if (cat.type = CategoryType.group ∧ tg.group = some cat.label) ∨
           (cat.type = CategoryType.tag ∧ tg.tag = some cat.label) then
          match alookup m' sys.id with
          | none => none
          | some tgm => some (setk m' sys.id (setk tgm tg.id status))
        else some m') m) s0.livefeedMap
  newMap.map (fun m => { s0 with livefeedMap := m })

/-- Claim C6: from a state with no hold active and a current call available,
engaging a hold (`holdSystem` or `holdTalkgroup`) and then releasing the
same hold restores the saved snapshot verbatim — the entire state returns
to its exact prior value (the release may happen under any later current
call). -/
theorem C6_hold_round_trip (s : HoldState) (c c2 : Call)
    (hsys : s.livefeedMapPriorToHoldSystem = none)
    (htg : s.livefeedMapPriorToHoldTalkgroup = none) :
    holdSystem (some c2) (holdSystem (some c) s) = s ∧
    holdTalkgroup (some c2) (holdTalkgroup (some c) s) = s := by
  obtain ⟨m, psys, ptg⟩ := s
  simp only at hsys htg
  subst hsys htg
  constructor <;> rfl

/-- Closed witness for C6 at a concrete state and call. -/
theorem C6_hold_round_trip_witness :
    holdSystem (some ⟨1, 200, []⟩)
        (holdSystem (some ⟨1, 100, []⟩)
          ⟨[(1, [(100, false), (200, true)])], none, none⟩) =
      ⟨[(1, [(100, false), (200, true)])], none, none⟩ ∧
    holdTalkgroup (some ⟨1, 200, []⟩)
        (holdTalkgroup (some ⟨1, 100, []⟩)
          ⟨[(1, [(100, false), (200, true)])], none, none⟩) =
      ⟨[(1, [(100, false), (200, true)])], none, none⟩ :=
  C6_hold_round_trip ⟨[(1, [(100, false), (200, true)])], none, none⟩
    ⟨1, 100, []⟩ ⟨1, 200, []⟩ rfl rfl

/-- At most one of the two hold snapshots is set. -/
def holdInv (s : HoldState) : Prop :=
  s.livefeedMapPriorToHoldSystem = none ∨
  s.livefeedMapPriorToHoldTalkgroup = none

/-- Claim C9: the two hold snapshots are never simultaneously set — the
initial state has both unset, engaging one hold kind first releases the
other (so `holdSystem`/`holdTalkgroup` re-establish the invariant
unconditionally whenever a call is available), and `avoid` and
`toggleCategory` discard both snapshots. -/
theorem C9_single_hold_snapshot :
    holdInv initialHoldState ∧
    (∀ (c : Option Call) (s : HoldState), holdInv s → holdInv (holdSystem c s)) ∧
    (∀ (c : Option Call) (s : HoldState), holdInv s → holdInv (holdTalkgroup c s)) ∧
    (∀ (o : AvoidOptions) (c : Option Call) (s s' : HoldState),
      avoid o c s = some s' →
        s'.livefeedMapPriorToHoldSystem = none ∧
        s'.livefeedMapPriorToHoldTalkgroup = none) ∧
    (∀ (cfg : List SystemCfg) (cat : Category) (s s' : HoldState),
      toggleCategory cfg cat s = some s' →
        s'.livefeedMapPriorToHoldSystem = none ∧
        s'.livefeedMapPriorToHoldTalkgroup = none) := by
  refine ⟨Or.inl rfl, ?_, ?_, ?_, ?_⟩
  · rintro (_ | c) s _
    · exact ‹holdInv s›
    · obtain ⟨m, psys, ptg⟩ := s
      cases psys <;> cases ptg <;> simp [holdSystem, holdInv]
  · rintro (_ | c) s _
    · exact ‹holdInv s›
    · obtain ⟨m, psys, ptg⟩ := s
      cases psys <;> cases ptg <;> simp [holdTalkgroup, holdInv]
  · intro o c s s' h
    unfold avoid at h
    rcases Option.map_eq_some'.mp h with ⟨m, _, hm⟩
    subst hm
    exact ⟨rfl, rfl⟩
  · intro cfg cat s s' h
    unfold toggleCategory at h
    rcases Option.map_eq_some'.mp h with ⟨m, _, hm⟩
    subst hm
    exact ⟨rfl, rfl⟩

/-- Closed witness for C9 at concrete states, discharging each hypothesis. -/
theorem C9_single_hold_snapshot_witness :
    holdInv (holdSystem (some ⟨1, 100, []⟩)
      ⟨[(1, [(100, true)])], none, some [(1, [(100, true)])]⟩) ∧
    holdInv (holdTalkgroup (some ⟨1, 100, []⟩)
      ⟨[(1, [(100, true)])], some [(1, [(100, true)])], none⟩) ∧
    ((avoid ⟨some true, none, none, none, none⟩ none
        ⟨[(1, [(100, true)])], some [(1, [(100, true)])], none⟩).map
          (fun s' => s'.livefeedMapPriorToHoldSystem) = some none) := by
  refine ⟨?_, ?_, ?_⟩
  · exact (C9_single_hold_snapshot.2.1 (some ⟨1, 100, []⟩)
      ⟨[(1, [(100, true)])], none, some [(1, [(100, true)])]⟩ (Or.inl rfl))
  · exact (C9_single_hold_snapshot.2.2.1 (some ⟨1, 100, []⟩)
      ⟨[(1, [(100, true)])], some [(1, [(100, true)])], none⟩ (Or.inr rfl))
  · have h := C9_single_hold_snapshot.2.2.2.1
      ⟨some true, none, none, none, none⟩ none
      ⟨[(1, [(100, true)])], some [(1, [(100, true)])], none⟩
      ⟨[(1, [(100, true)])], none, none⟩ (by decide)
    simp [show (avoid ⟨some true, none, none, none, none⟩ none
        ⟨[(1, [(100, true)])], some [(1, [(100, true)])], none⟩ :
        Option HoldState) =
        some ⟨[(1, [(100, true)])], none, none⟩ from by decide, h.1]

/-! ## Admin token list and login throttle (`src/server/admin.go`) -/

/-- The token-append step of `LoginHandler` (src/server/admin.go lines
438-442): below five stored tokens the new token is appended; at five the
first (oldest) token is dropped and the new one appended. -/
def pushToken (tokens : List String) (t : String) : List String :=
  if tokens.length < 5 then tokens ++ [t] else tokens.drop 1 ++ [t]

/-- `ValidateToken` (src/server/admin.go lines 681-705): the token must be
present in the stored list and its JWT signature must verify (the JWT
library is abstracted as the predicate `jwtValid`). -/
def validateToken (jwtValid : String → Bool) (tokens : List String)
    (t : String) : Bool :=
  decide (t ∈ tokens) && jwtValid t

/-- The removal loop of `LogoutHandler` (src/server/admin.go lines 474-478):
the entry equal to the presented token is removed.  Tokens are pairwise
distinct in practice (each embeds a fresh random UUID), so removing the
first occurrence models the Go loop. -/
def logoutTokens (tokens : List String) (t : String) : List String :=
  tokens.erase t

/-- Claim C8: the admin token list is a bounded FIFO ring buffer — a login
never grows it past five tokens; at five the oldest token is dropped and
the new one appended; and an evicted or logged-out token no longer
validates. -/
theorem C8_token_ring_buffer (jwtValid : String → Bool) :
    (∀ (l : List String) (t : String),
      l.length ≤ 5 → (pushToken l t).length ≤ 5) ∧
    (∀ (l : List String) (t : String),
      l.length = 5 → pushToken l t = l.drop 1 ++ [t]) ∧
    (∀ (l : List String) (t old : String),
      l.length = 5 → l.Nodup → l.head? = some old → old ≠ t →
        validateToken jwtValid (pushToken l t) old = false) ∧
    (∀ (l : List String) (t : String),
      l.Nodup → validateToken jwtValid (logoutTokens l t) t = false) := by
  refine ⟨?_, ?_, ?_, ?_⟩
  · intro l t h
    unfold pushToken
    by_cases hlt : l.length < 5
    · simp [hlt]
      omega
    · simp [hlt]
      omega
  · intro l t h
    unfold pushToken
    simp [h]
  · intro l t old h5 hnd hhead hne
    unfold pushToken
    have hlt : ¬l.length < 5 := by omega
    rw [if_neg hlt]
    cases l with
    | nil => simp at h5
    | cons x rest =>
      have hx : x = old := by
        simpa using hhead
      have hxrest : x ∉ rest := (List.nodup_cons.mp hnd).1
      have hnotmem : old ∉ rest ++ [t] := by
        intro hmem
        rcases List.mem_append.mp hmem with hm | hm
        · exact hxrest (hx ▸ hm)
        · exact hne (by simpa using hm)
      unfold validateToken
      simp only [List.drop_succ_cons, List.drop_zero]
      simp [hnotmem]
  · intro l t hnd
    unfold validateToken logoutTokens
    have : t ∉ l.erase t := hnd.not_mem_erase
    simp [this]

/-- Closed witness for C8 with a full token list, discharging every
hypothesis at concrete inputs. -/
theorem C8_token_ring_buffer_witness :
    (pushToken ["a", "b", "c", "d", "e"] "f").length ≤ 5 ∧
    pushToken ["a", "b", "c", "d", "e"] "f" = ["b", "c", "d", "e", "f"] ∧
    validateToken (fun _ => true)
      (pushToken ["a", "b", "c", "d", "e"] "f") "a" = false ∧
    validateToken (fun _ => true)
      (logoutTokens ["a", "b", "c", "d", "e"] "c") "c" = false := by
  have h := C8_token_ring_buffer (fun _ => true)
  refine ⟨h.1 ["a", "b", "c", "d", "e"] "f" (by decide),
          ?_,
          h.2.2.1 ["a", "b", "c", "d", "e"] "f" "a" (by decide) (by decide)
            (by decide) (by decide),
          h.2.2.2 ["a", "b", "c", "d", "e"] "c" (by decide)⟩
  rw [h.2.1 ["a", "b", "c", "d", "e"] "f" (by decide)]
  decide

/-- `AdminLoginAttempt` (src/server/admin.go lines 48-51); time is modelled
as a `Nat` tick. -/
structure AdminLoginAttempt where
  count : Nat
  date : Nat
deriving DecidableEq

/-- `AttemptsMax` as set in `NewAdmin` (src/server/admin.go line 58). -/
def attemptsMax : Nat := 3

/-- `AttemptsMaxDelay` as set in `NewAdmin` (src/server/admin.go line 59):
`time.Duration(time.Duration.Minutes(10))` is `Duration(10).Minutes()`
(about 1.7e-7 minutes, a float) converted to a `Duration`, which truncates
to 0 nanoseconds. -/
def attemptsMaxDelay : Nat := 0

/-- The outcome of `LoginHandler` that the claims observe. -/
inductive LoginResult
  | unauthorized
  | ok
deriving DecidableEq

/-- The attempt-counter update at the top of `LoginHandler` (src/server/
admin.go lines 384-395): a missing entry is created with count 1, an
existing entry is incremented; either way the date is set to now. -/
def loginAttemptStep (attempts : List (String × AdminLoginAttempt))
    (remoteAddr : String) (now : Nat) : AdminLoginAttempt :=
  match alookup attempts remoteAddr with
  | none => ⟨1, now⟩
  | some a => ⟨a.count + 1, now⟩

/-- `LoginHandler` (src/server/admin.go lines 372-464) for a POST with a
parseable body: the per-remote-address attempt counter is created at 1 or
incremented, then the throttle check runs, and only then the bcrypt
comparison (abstracted as `passwordOk`); on success a token is issued and
appended via the ring-buffer step and stale attempt entries are purged.
The improbable uuid/signing/marshal error exits (HTTP 417) are not
modelled; they occur only after the throttle and password checks. -/
def loginHandler (attempts : List (String × AdminLoginAttempt))
    (remoteAddr : String) (now : Nat) (passwordOk : Bool)
    (tokens : List String) (newToken : String) :
    List (String × AdminLoginAttempt) × LoginResult × List String :=
  if (loginAttemptStep attempts remoteAddr now).count > attemptsMax ∨
      now - (loginAttemptStep attempts remoteAddr now).date <
        attemptsMaxDelay then
    (setk attempts remoteAddr (loginAttemptStep attempts remoteAddr now),
     LoginResult.unauthorized, tokens)
  else if passwordOk = false then
    (setk attempts remoteAddr (loginAttemptStep attempts remoteAddr now),
     LoginResult.unauthorized, tokens)
  else
    ((setk attempts remoteAddr (loginAttemptStep attempts remoteAddr now)).filter
       (fun p => !decide (now - p.2.date > attemptsMaxDelay)),
     LoginResult.ok, pushToken tokens newToken)

theorem loginAttemptStep_eq (attempts : List (String × AdminLoginAttempt))
    (addr : String) (now : Nat) :
    loginAttemptStep attempts addr now =
      ⟨((alookup attempts addr).map AdminLoginAttempt.count).getD 0 + 1,
       now⟩ := by
  unfold loginAttemptStep
  cases alookup attempts addr <;> simp

/-- Claim C10: the attempt counter for the caller's remote address is
incremented before the password is checked — the stored counter ends one
higher (or at 1) for every request, correct password included — and
whenever the incremented counter exceeds `AttemptsMax` (3) the handler
answers 401 and appends no token, regardless of the password. -/
theorem C10_login_throttle :
    (∀ (attempts : List (String × AdminLoginAttempt)) (addr : String)
        (now : Nat) (pw : Bool) (tokens : List String) (tk : String),
      alookup (loginHandler attempts addr now pw tokens tk).1 addr =
        some ⟨((alookup attempts addr).map AdminLoginAttempt.count).getD 0 + 1,
              now⟩) ∧
    (∀ (attempts : List (String × AdminLoginAttempt)) (addr : String)
        (now : Nat) (pw : Bool) (tokens : List String) (tk : String),
      ((alookup attempts addr).map AdminLoginAttempt.count).getD 0 + 1 >
          attemptsMax →
        (loginHandler attempts addr now pw tokens tk).2.1 =
            LoginResult.unauthorized ∧
          (loginHandler attempts addr now pw tokens tk).2.2 = tokens) := by
  constructor
  · intro attempts addr now pw tokens tk
    have hcount := loginAttemptStep_eq attempts addr now
    have hget : alookup (setk attempts addr (loginAttemptStep attempts addr now))
        addr = some (loginAttemptStep attempts addr now) :=
      (alookup_setk attempts addr _ addr).trans (if_pos rfl)
    unfold loginHandler
    by_cases hthrottle :
        (loginAttemptStep attempts addr now).count > attemptsMax ∨
          now - (loginAttemptStep attempts addr now).date < attemptsMaxDelay
    · rw [if_pos hthrottle]
      rw [show (setk attempts addr (loginAttemptStep attempts addr now),
          LoginResult.unauthorized, tokens).1 =
          setk attempts addr (loginAttemptStep attempts addr now) from rfl,
        hget, hcount]
    · rw [if_neg hthrottle]
      by_cases hpw : pw = false
      · rw [if_pos hpw]
        rw [show (setk attempts addr (loginAttemptStep attempts addr now),
            LoginResult.unauthorized, tokens).1 =
            setk attempts addr (loginAttemptStep attempts addr now) from rfl,
          hget, hcount]
      · rw [if_neg hpw]
        have hkeep : ∀ p ∈ setk attempts addr (loginAttemptStep attempts addr now),
            p.1 = addr →
            (!decide (now - p.2.date > attemptsMaxDelay)) = true := by
          intro p hp hpk
          have hpe := setk_entry_of_key attempts addr
            (loginAttemptStep attempts addr now) p hp hpk
          subst hpe
          rw [hcount]
          simp [attemptsMaxDelay]
        show alookup ((setk attempts addr
            (loginAttemptStep attempts addr now)).filter
            (fun p => !decide (now - p.2.date > attemptsMaxDelay))) addr = _
        rw [alookup_filter_of_key _ _ _ hkeep, hget, hcount]
  · intro attempts addr now pw tokens tk hover
    have hcount := loginAttemptStep_eq attempts addr now
    have hthrottle :
        (loginAttemptStep attempts addr now).count > attemptsMax ∨
          now - (loginAttemptStep attempts addr now).date < attemptsMaxDelay := by
      left
      rw [hcount]
      exact hover
    unfold loginHandler
    rw [if_pos hthrottle]
    exact ⟨rfl, rfl⟩

/-- Closed witness for C10: a fourth attempt from the same address with the
correct password is still rejected and issues no token. -/
theorem C10_login_throttle_witness :
    alookup (loginHandler [("addr", ⟨3, 0⟩)] "addr" 5 true [] "tok").1 "addr" =
      some ⟨4, 5⟩ ∧
    (loginHandler [("addr", ⟨3, 0⟩)] "addr" 5 true [] "tok").2.1 =
      LoginResult.unauthorized ∧
    (loginHandler [("addr", ⟨3, 0⟩)] "addr" 5 true [] "tok").2.2 = [] := by
  have h1 := C10_login_throttle.1 [("addr", ⟨3, 0⟩)] "addr" 5 true [] "tok"
  have h2 := C10_login_throttle.2 [("addr", ⟨3, 0⟩)] "addr" 5 true [] "tok"
    (by decide)
  exact ⟨by simpa using h1, h2.1, h2.2⟩

/-! ## Admin PUT config handler trace (`src/server/admin.go`) -/

/-- The configuration tables written by `ConfigHandler`'s PUT branch. -/
inductive CfgTable
  | access
  | apiKeys
  | dirWatch
  | downstreams
  | groups
  | options
  | systems
  | tags
deriving DecidableEq

/-- The externally visible steps of `ConfigHandler`'s PUT branch
(src/server/admin.go lines 160-288).  `ingestLock`/`ingestUnlock` are
`Controller.IngestLock`/`IngestUnlock` — the Ingest Gate that, per spec
§4.6, pauses all Normalizer/Store activity while held (the controller's
Go source is not under `src/`). -/
inductive CfgEvent
  | ingestLock
  | mutexLock
  | dirwatchesStop
  | writeTable (t : CfgTable)
  | readTable (t : CfgTable)
  | mutexUnlock
  | ingestUnlock
  | emitConfig
  | dirwatchesStart
  | sendConfig
deriving DecidableEq

/-- A table write followed, when the write succeeded, by the cache reload
(`Write` then `Read`), emitted only when the request body carries that
table's key. -/
def tableBlock (present readOk : Bool) (t : CfgTable) : List CfgEvent :=
  if present then
    CfgEvent.writeTable t :: (if readOk then [CfgEvent.readTable t] else [])
  else []

/-- The event trace of one execution of `ConfigHandler`'s PUT branch
(src/server/admin.go lines 160-288): gate and mutex acquired, dirwatches
stopped, the eight table sections in source order (`options` has a write
but no reload, lines 243-250), then mutex and gate released, the new
config emitted, dirwatches restarted and the config sent to the caller.
Each `present` flag states whether the request body carries that table's
key with the expected JSON type; each `readOk` flag states whether the
table's `Write` returned without error. -/
def configPutTrace (pAccess rAccess pApi rApi pDir rDir pDown rDown
    pGroups rGroups pOptions pSystems rSystems pTags rTags : Bool) :
    List CfgEvent :=
  [CfgEvent.ingestLock, CfgEvent.mutexLock, CfgEvent.dirwatchesStop]
    ++ tableBlock pAccess rAccess CfgTable.access
    ++ tableBlock pApi rApi CfgTable.apiKeys
    ++ tableBlock pDir rDir CfgTable.dirWatch
    ++ tableBlock pDown rDown CfgTable.downstreams
    ++ tableBlock pGroups rGroups CfgTable.groups
    ++ (if pOptions then [CfgEvent.writeTable CfgTable.options] else [])
    ++ tableBlock pSystems rSystems CfgTable.systems
    ++ tableBlock pTags rTags CfgTable.tags
    ++ [CfgEvent.mutexUnlock, CfgEvent.ingestUnlock, CfgEvent.emitConfig,
        CfgEvent.dirwatchesStart, CfgEvent.sendConfig]

/-- Whether an event is a configuration-table mutation (write or reload). -/
def isMutation : CfgEvent → Bool
  | CfgEvent.writeTable _ => true
  | CfgEvent.readTable _ => true
  | _ => false

theorem tableBlock_all_mutation (present readOk : Bool) (t : CfgTable) :
    (tableBlock present readOk t).all isMutation = true := by
  cases present <;> cases readOk <;> simp [tableBlock, isMutation]

/-- Claim C4: in every execution of the admin PUT config handler, the Ingest
Gate is acquired before the first configuration mutation, every table
write and cache reload happens while the gate is held, and the gate is
released before the new configuration is emitted and the dirwatches are
restarted — so, by the gate's contract, ingestion never runs concurrently
with those writes. -/
theorem C4_config_write_under_ingest_gate
    (pAccess rAccess pApi rApi pDir rDir pDown rDown
     pGroups rGroups pOptions pSystems rSystems pTags rTags : Bool) :
    ∃ mid : List CfgEvent,
      configPutTrace pAccess rAccess pApi rApi pDir rDir pDown rDown
          pGroups rGroups pOptions pSystems rSystems pTags rTags =
        [CfgEvent.ingestLock, CfgEvent.mutexLock, CfgEvent.dirwatchesStop]
          ++ mid
          ++ [CfgEvent.mutexUnlock, CfgEvent.ingestUnlock, CfgEvent.emitConfig,
              CfgEvent.dirwatchesStart, CfgEvent.sendConfig] ∧
      mid.all isMutation = true := by
  refine ⟨tableBlock pAccess rAccess CfgTable.access
    ++ tableBlock pApi rApi CfgTable.apiKeys
    ++ tableBlock pDir rDir CfgTable.dirWatch
    ++ tableBlock pDown rDown CfgTable.downstreams
    ++ tableBlock pGroups rGroups CfgTable.groups
    ++ (if pOptions then [CfgEvent.writeTable CfgTable.options] else [])
    ++ tableBlock pSystems rSystems CfgTable.systems
    ++ tableBlock pTags rTags CfgTable.tags, ?_, ?_⟩
  · simp [configPutTrace, List.append_assoc]
  · simp only [List.all_append, Bool.and_eq_true, tableBlock_all_mutation,
      and_true, true_and]
    cases pOptions <;> simp [isMutation]

/-! ## Duplicate Detector (spec §4.3 — modelled from the spec) -/

/-- Modelled from the spec: a Duplicate Window Entry / candidate call —
(system, talkgroup, content fingerprint, submission time in seconds).
The Go duplicate-detection code is not under `src/`; only its
`disableDuplicateDetection` / `duplicateDetectionTimeFrame` options appear
in `src/server/options.go`. -/
structure DupCand where
  system : Nat
  talkgroup : Nat
  fingerprint : Nat
  time : Nat
deriving DecidableEq

/-- Modelled from the spec (§4.3): a candidate is a duplicate when an
accepted entry with the same (system, talkgroup, fingerprint) lies within
`window` seconds of it. -/
def isDuplicate (window : Nat) (entries : List DupCand) (c : DupCand) : Bool :=
  entries.any (fun e =>
    decide (e.system = c.system) && decide (e.talkgroup = c.talkgroup) &&
    decide (e.fingerprint = c.fingerprint) && decide (c.time - e.time ≤ window))

/-- Modelled from the spec (§4.3): a duplicate candidate is rejected and the
window is unchanged; an accepted candidate inserts its window entry. -/
def dedupSubmit (window : Nat) (entries : List DupCand) (c : DupCand) :
    List DupCand × Bool :=
  if isDuplicate window entries c then (entries, false)
  else (entries ++ [c], true)

/-- The accept/reject verdicts of a sequence of submissions against an
initially empty duplicate window. -/
def runDedup (window : Nat) (cs : List DupCand) : List Bool :=
  (cs.foldl
    (fun (acc : List DupCand × List Bool) c =>
      ((dedupSubmit window acc.1 c).1, acc.2 ++ [(dedupSubmit window acc.1 c).2]))
    ([], [])).2

/-- Claim C2: of two calls with identical (system, talkgroup, fingerprint),
the second is rejected when submitted within the duplicate window and
accepted once the window has expired; in the three-call scenario the
rejected middle call inserts no window entry, so the third call is judged
against the first. -/
theorem C2_duplicate_window :
    (∀ (w s tg fp t1 t2 : Nat), t2 - t1 ≤ w →
      runDedup w [⟨s, tg, fp, t1⟩, ⟨s, tg, fp, t2⟩] = [true, false]) ∧
    (∀ (w s tg fp t1 t2 : Nat), w < t2 - t1 →
      runDedup w [⟨s, tg, fp, t1⟩, ⟨s, tg, fp, t2⟩] = [true, true]) ∧
    (∀ (w s tg fp t1 t2 t3 : Nat), t2 - t1 ≤ w → w < t3 - t1 →
      runDedup w [⟨s, tg, fp, t1⟩, ⟨s, tg, fp, t2⟩, ⟨s, tg, fp, t3⟩] =
        [true, false, true]) := by
  refine ⟨?_, ?_, ?_⟩
  · intro w s tg fp t1 t2 h
    have h1 : t2 ≤ w + t1 := by omega
    simp [runDedup, dedupSubmit, isDuplicate, h1]
  · intro w s tg fp t1 t2 h
    have h1 : ¬t2 ≤ w + t1 := by omega
    simp [runDedup, dedupSubmit, isDuplicate, h1]
  · intro w s tg fp t1 t2 t3 h2 h3
    have ha : t2 ≤ w + t1 := by omega
    have hb : ¬t3 ≤ w + t1 := by omega
    simp [runDedup, dedupSubmit, isDuplicate, ha, hb]

/-- Closed witness for C2 at the spec §8 scenario: window 5 s, identical
fingerprints at t = 0, 3, 6 — stored, rejected, stored. -/
theorem C2_duplicate_window_witness :
    runDedup 5 [⟨1, 100, 7, 0⟩, ⟨1, 100, 7, 3⟩, ⟨1, 100, 7, 6⟩] =
      [true, false, true] :=
  C2_duplicate_window.2.2 5 1 100 7 0 3 6 (by decide) (by decide)

/-! ## Call Store identifiers (spec §4.4 — modelled from the spec) -/

/-- Modelled from the spec: the Call Store's identifier state — the next
identifier to assign, the identifiers of stored calls in storage order,
and the identifiers in broadcast order.  The Go store source is not under
`src/`. -/
structure StoreState where
  nextId : Nat
  storedIds : List Nat
  broadcastIds : List Nat
deriving DecidableEq

/-- Modelled from the spec (§4.4/§5): `Store(call) -> id` assigns the next
identifier, appends the call in storage order and hands it to broadcast in
the same order; submissions are serialized through the store (any
concurrent interleaving of producers reaches the store as some
sequence). -/
def storeCall (st : StoreState) : StoreState × Nat :=
  (⟨st.nextId + 1, st.storedIds ++ [st.nextId],
    st.broadcastIds ++ [st.nextId]⟩, st.nextId)

/-- `n` successive accepted submissions. -/
def runStore : StoreState → Nat → StoreState
  | st, 0 => st
  | st, Nat.succ n => runStore (storeCall st).1 n

theorem runStore_eq (n : Nat) :
    ∀ (i0 : Nat) (l b : List Nat),
      runStore ⟨i0, l, b⟩ n =
        ⟨i0 + n, l ++ List.range' i0 n, b ++ List.range' i0 n⟩ := by
  induction n with
  | zero => intro i0 l b; simp [runStore]
  | succ n ih =>
    intro i0 l b
    show runStore ⟨i0 + 1, l ++ [i0], b ++ [i0]⟩ n = _
    rw [ih (i0 + 1) (l ++ [i0]) (b ++ [i0])]
    simp [List.range'_succ]
    omega

/-- Claim C3: across any run of the Call Store, assigned identifiers are
strictly increasing in storage order, no identifier is assigned twice, and
the broadcast order equals the storage order. -/
theorem C3_store_monotonic_ids (n i0 : Nat) :
    (runStore ⟨i0, [], []⟩ n).storedIds = List.range' i0 n ∧
    (runStore ⟨i0, [], []⟩ n).storedIds.Pairwise (· < ·) ∧
    (runStore ⟨i0, [], []⟩ n).storedIds.Nodup ∧
    (runStore ⟨i0, [], []⟩ n).broadcastIds =
      (runStore ⟨i0, [], []⟩ n).storedIds := by
  have h := runStore_eq n i0 [] []
  rw [h]
  refine ⟨by simp, ?_, ?_, by simp⟩
  · simp only [List.nil_append]
    exact List.pairwise_lt_range' i0 n
  · simp only [List.nil_append]
    exact (List.pairwise_lt_range' i0 n).imp (fun hab => Nat.ne_of_lt hab)
